import Mathlib

/-!
# Verification of the `logger` structured-log formatter

This file is a shallow embedding of the Go package `logger`
(files `util.go` and the formatter implementation: `parseIP`, `stackTrace`,
`extractError`, `richRequest`, `LogsV1Formatter.Format`, the `sync.Pool` of
`LogsV1` records) together with proofs about it.

Modelling conventions:
* Go maps (`logrus.Fields`, `url.Values`, header maps) are association lists
  `List (String × α)` with overwrite-on-insert semantics (`mapInsert`).
  Go's random map iteration order is replaced by the stored list order; every
  proved property is order-insensitive or explicitly about a fixed order.
* Go standard-library functions used by the package (`net.SplitHostPort`,
  `strings.*`) are translated faithfully from their documented algorithms.
* The `sync.Pool` holding `*LogsV1` records is modelled as a single explicit
  record threaded through `format`: `Get` hands over the threaded record and
  `Put` stores the record that was just encoded.  This captures the
  single-threaded reuse behaviour of the pool exactly.
-/

set_option maxRecDepth 100000

namespace Logger

/-! ## Association maps (Go `map[string]α` with explicit insertion order) -/

/-- Overwriting insert: replaces the binding of `k` in place, else appends. -/
def mapInsert {α : Type} : List (String × α) → String → α → List (String × α)
  | [], k, v => [(k, v)]
  | (k', v') :: rest, k, v =>
    if k' = k then (k, v) :: rest else (k', v') :: mapInsert rest k v

/-- Go map indexing `m[k]` (first binding wins; maps never hold duplicates). -/
def mapLookup {α : Type} : List (String × α) → String → Option α
  | [], _ => none
  | (k', v') :: rest, k => if k' = k then some v' else mapLookup rest k

/-- Value bound to the LAST occurrence of `k`, matching the overwrite
semantics of a sequence of Go map writes taken from an association list. -/
def lastLookup {α : Type} (l : List (String × α)) (k : String) : Option α :=
  mapLookup l.reverse k

/-! ## Strings (Go `strings` package operations used by the source) -/

/-- `strings.Contains` on character lists (`p` empty → `true`). -/
def charsContains : List Char → List Char → Bool
  | s, p =>
    if p.isPrefixOf s then true
    else match s with
      | [] => false
      | _ :: t => charsContains t p

/-- Go `strings.Contains`. -/
def strContains (s pat : String) : Bool :=
  charsContains s.data pat.data

/-- Index of the last occurrence of `c` in `l` (Go's `last(s, byte)`). -/
def lastIndexOfChar : List Char → Char → Option Nat
  | [], _ => none
  | a :: rest, c =>
    match lastIndexOfChar rest c with
    | some i => some (i + 1)
    | none => if a = c then some 0 else none

/-- Index of the first occurrence of `c` in `l` (Go's `IndexByteString`). -/
def indexOfChar : List Char → Char → Option Nat
  | [], _ => none
  | a :: rest, c => if a = c then some 0 else (indexOfChar rest c).map (· + 1)

/-- Go `net.SplitHostPort`, translated from `net/ipsock.go`: the port starts
after the last colon; a leading `[` starts a bracketed host that must end
with `]` immediately before that colon; stray brackets or extra colons in the
host are errors (`none`). -/
def splitHostPort (s : String) : Option (String × String) :=
  let cs := s.data
  match lastIndexOfChar cs ':' with
  | none => none
  | some i =>
    if cs.head? = some '[' then
      match indexOfChar cs ']' with
      | none => none
      | some e =>
        if e + 1 = cs.length then none
        else if e + 1 = i then
          if (cs.drop 1).contains '[' then none
          else if (cs.drop (e + 1)).contains ']' then none
          else some (String.mk ((cs.drop 1).take (e - 1)), String.mk (cs.drop (i + 1)))
        else none
    else
      let host := cs.take i
      if host.contains ':' then none
      else if cs.contains '[' then none
      else if cs.contains ']' then none
      else some (String.mk host, String.mk (cs.drop (i + 1)))

/-! ## `util.go` -/

/-- `parseIP` from `util.go`: if the address starts with `[` or contains
exactly one `:`, return the host half of `net.SplitHostPort` (Go discards the
error, leaving the zero-value `""` host on failure); otherwise return the
input unchanged. -/
def parseIP (remoteAddr : String) : String :=
  if remoteAddr.data.head? = some '[' || remoteAddr.data.count ':' = 1 then
    match splitHostPort remoteAddr with
    | some hp => hp.1
    | none => ""
  else
    remoteAddr

/-! ## Data model

`logrus.Entry.Data` is `map[string]interface{}`.  The dynamic values the
formatter inspects are closed over by the inductive `Val`:
strings, numbers, booleans, `nil`, `[]string` (multi-valued parameters),
nested JSON objects, `error` values, `*http.Request` values, and `vFunc`,
standing for a Go value of a kind `encoding/json`/`jsoniter` cannot
serialize (a `func` or `chan` value). -/

/-- One `pkg/errors` stack frame, as printed by `%+v`:
`function` then newline, tab, `location` (`file:line`). -/
structure Frame where
  function : String
  location : String
  deriving Repr

/-- A Go `error` value.  `frames = some fs` models an error whose dynamic
type implements the optional `stackTracer` capability
(`StackTrace() errors.StackTrace`), reporting the frames `fs`
innermost-first; `frames = none` models a plain error without it. -/
structure GoError where
  msg : String
  frames : Option (List Frame)
  deriving Repr

/-- The slice of an `*http.Request` the formatter reads, generic in the type
`α` of decoded JSON body values (instantiated with `Val` below).
Standard-library behaviour is modelled by its outcome: `query` is the parsed
`req.URL.Query()`, `parseFormOk`/`postForm` are the error status and the
resulting `req.PostForm` of `req.ParseForm()`, and `jsonBody = some obj`
holds exactly when reading the (buffered, replayed) body and decoding it as
a JSON object succeeds, with `obj` its top-level members.  Reads are pure
because `richRequest` restores the body after consuming it. -/
structure HTTPRequestOf (α : Type) where
  remoteAddr : String
  method : String
  path : String
  query : List (String × List String)
  headers : List (String × List String)
  parseFormOk : Bool
  postForm : List (String × List String)
  jsonBody : Option (List (String × α))

/-- Dynamic Go values stored in `logrus.Fields`. -/
inductive Val where
  | vStr (s : String)
  | vInt (n : Int)
  | vBool (b : Bool)
  | vNull
  | vStrs (l : List String)
  | vMap (m : List (String × Val))
  | vErr (e : GoError)
  | vReq (r : HTTPRequestOf Val)
  | vFunc

/-- An `*http.Request` as the formatter sees it. -/
abbrev HTTPRequest : Type := HTTPRequestOf Val

/-! ## Error extraction (`stackTrace`, `extractError`) -/

/-- `MaxStackTrace`: maximum recorded stack depth (package-level variable,
default value 10). -/
def MaxStackTrace : Nat := 10

/-- The package-level `emptyStack = make([]string, 0)`. -/
def emptyStack : List String := []

/-- Go `strings.Split` with the one-character separator the source uses.
`strings.Split("", sep) = [""]`, i.e. the result is never empty. -/
def splitOnChar (sep : Char) : List Char → List (List Char)
  | [] => [[]]
  | c :: rest =>
    if c = sep then [] :: splitOnChar sep rest
    else
      match splitOnChar sep rest with
      | h :: t => (c :: h) :: t
      | [] => [[c]]

/-- Go `strings.ReplaceAll(s, "\n\t", " ")`: left-to-right, non-overlapping. -/
def replaceNlTab : List Char → List Char
  | [] => []
  | [c] => [c]
  | a :: b :: rest =>
    if a = '\n' ∧ b = '\t' then ' ' :: replaceNlTab rest
    else a :: replaceNlTab (b :: rest)

/-- `fmt.Sprintf("%+v", st)` for a `pkg/errors` `StackTrace`: each frame
prints as `"\n" ++ function ++ "\n\t" ++ location`. -/
def renderStack (fs : List Frame) : List Char :=
  (fs.map (fun f => '\n' :: (f.function.data ++ '\n' :: '\t' :: f.location.data))).flatten

/-- `stackTrace` from the formatter source: if the error implements the
`stackTracer` capability, render the frames with `%+v`, trim leading
newlines, replace every `"\n\t"` by a space and split on `"\n"`;
otherwise return `emptyStack`. -/
def stackTrace (err : GoError) : List String :=
  match err.frames with
  | some fs =>
    (splitOnChar '\n' (replaceNlTab ((renderStack fs).dropWhile (· = '\n')))).map
      (fun l => String.mk l)
  | none => emptyStack

/-- `extractError` from the formatter source: message plus the stack trace
truncated to `MaxStackTrace` entries (`trace` stays `nil` when the trace is
empty). -/
def extractError (err : GoError) : String × List String :=
  let st := stackTrace err
  let trace : List String :=
    if 0 < st.length then
      (if MaxStackTrace ≤ st.length then st.take MaxStackTrace else st)
    else []
  (err.msg, trace)

/-! ## `fmt.Sprintf("%v", v)` (default conversion used for the reserved
`user`, `status` and `duration` fields) -/

mutual
/-- Go `fmt.Sprintf("%v", v)` for the values of `Val`.  Strings print
verbatim, integers in decimal, `nil` as `"<nil>"`, `[]string` as
space-separated elements in brackets, errors via their `Error()` method
(their message).  `fmt`'s reflective dumps for `*http.Request` and `func`
values are opaque addresses/struct dumps; they are modelled by fixed tags
(no proved property depends on them).  `fmt` prints map keys sorted; no
proved property depends on map rendering, entries print in stored order. -/
def sprintV : Val → String
  | .vStr s => s
  | .vInt n => toString n
  | .vBool b => cond b "true" "false"
  | .vNull => "<nil>"
  | .vStrs l => "[" ++ String.intercalate " " l ++ "]"
  | .vMap m => "map[" ++ sprintMembers m ++ "]"
  | .vErr e => e.msg
  | .vReq _ => "&\x7b\x7d"
  | .vFunc => "0x0"

/-- Renders `k1:v1 k2:v2 …` for `fmt`'s map display. -/
def sprintMembers : List (String × Val) → String
  | [] => ""
  | [(k, v)] => k ++ ":" ++ sprintV v
  | (k, v) :: rest => k ++ ":" ++ sprintV v ++ " " ++ sprintMembers rest
end

/-! ## Request enrichment (`richRequest`) -/

/-- How a `url.Values` entry is stored into `request.Param`: the slice when
it has several values, else its sole value (`url.Values` entries produced by
parsing are never empty; `headD ""` models the `v[0]` access). -/
def valuesEntry (vs : List String) : Val :=
  if 1 < vs.length then .vStrs vs else .vStr (vs.headD "")

/-- The `for k, v := range src` loop writing `url.Values` entries into
`request.Param`. -/
def insertParams (m : List (String × Val)) (src : List (String × List String)) :
    List (String × Val) :=
  src.foldl (fun acc kv => mapInsert acc kv.1 (valuesEntry kv.2)) m

/-- Go `strings.ToLower` (character-wise; header names are ASCII). -/
def lowerStr (s : String) : String :=
  String.mk (s.data.map Char.toLower)

/-- The header loop of `richRequest`: lower-case each name, join multiple
values with `", "`, else keep the sole value. -/
def buildHeaders (hs : List (String × List String)) : List (String × String) :=
  hs.foldl
    (fun acc kv =>
      mapInsert acc (lowerStr kv.1)
        (if 1 < kv.2.length then String.intercalate ", " kv.2 else kv.2.headD ""))
    []

/-- `RequestData` from the formatter source. -/
structure RequestData where
  ip : String
  method : String
  path : String
  headers : List (String × String)
  status : String
  duration : String
  param : List (String × Val)

/-- `richRequest` from the formatter source: IP via `parseIP`, lower-cased
joined headers, and the `Param` map built by inserting, in order, the query
parameters (when any), the `PostForm` parameters (when `ParseForm` succeeded
and any exist), and — when the `content-type` header value contains
`application/json` — the top-level members of the decoded JSON body. -/
def richRequest (req : HTTPRequest) (status duration : String) : RequestData :=
  let headers := buildHeaders req.headers
  let p1 : List (String × Val) :=
    if 0 < req.query.length then insertParams [] req.query else []
  let p2 : List (String × Val) :=
    if req.parseFormOk then
      (if 0 < req.postForm.length then insertParams p1 req.postForm else p1)
    else p1
  let p3 : List (String × Val) :=
    if strContains ((mapLookup headers "content-type").getD "") "application/json" then
      match req.jsonBody with
      | some body => body.foldl (fun acc kv => mapInsert acc kv.1 kv.2) p2
      | none => p2
    else p2
  { ip := parseIP req.remoteAddr
    method := req.method
    path := req.path
    headers := headers
    status := status
    duration := duration
    param := p3 }

/-! ## The `LogsV1` record, the classifier loop and `Format` -/

/-- `LogsV1` from the formatter source (the pooled record). -/
structure LogsV1 where
  schema : String
  time : String
  level : String
  service : String
  channel : String
  environment : String
  user : String
  message : String
  context : List (String × Val)
  request : Option RequestData

/-- The record produced by the pool's `New` function: `&LogsV1\x7b\x7d`. -/
def zeroRecord : LogsV1 :=
  { schema := "", time := "", level := "", service := "", channel := ""
    environment := "", user := "", message := "", context := [], request := none }

/-- `LogsV1Formatter`: construction-time configuration. -/
structure Formatter where
  timeLayout : String
  service : String
  environment : String

/-- `NewFormatter`. -/
def NewFormatter (service env : String) : Formatter :=
  { timeLayout := "2006-01-02T15:04:05.999Z07:00", service := service
    environment := env }

/-- Caller information carried by a `logrus.Entry` with `ReportCaller`. -/
structure Caller where
  file : String
  line : Nat
  function : String

/-- A `logrus.Entry` as `Format` reads it.  `time` is the timestamp already
rendered through the formatter's fixed `TimeLayout` (Go's `time.Format` is an
external pure function of the entry's instant and that fixed layout);
`level` is `entry.Level.String()`; `buffer` is `entry.Buffer`'s current
contents (`none` when `entry.Buffer == nil`). -/
structure Entry where
  time : String
  level : String
  message : String
  data : List (String × Val)
  caller : Option Caller
  buffer : Option String

/-- The local accumulator of `Format`'s field loop. -/
structure Classified where
  channel : String
  uid : String
  status : String
  duration : String
  context : List (String × Val)

/-- `channel, _ = v.(string)`: the string value, or the zero value `""` when
the type assertion fails. -/
def asString : Val → String
  | .vStr s => s
  | _ => ""

/-- `v.(*http.Request)` succeeds? -/
def isReqVal : Val → Bool
  | .vReq _ => true
  | _ => false

/-- The `errData` map the field loop builds for an error-typed value:
`\x7b"msg": msg\x7d`, plus `"trace"` when the truncated trace is non-empty. -/
def errValData (err : GoError) : List (String × Val) :=
  let mt := extractError err
  let errData := mapInsert ([] : List (String × Val)) "msg" (.vStr mt.1)
  if 0 < mt.2.length then mapInsert errData "trace" (.vStrs mt.2) else errData

/-- One iteration of `for k, v := range entry.Data` in `Format` (the
`switch k` compiles to sequential equality tests). -/
def classifyStep (acc : Classified) (kv : String × Val) : Classified :=
  if kv.1 = "channel" then { acc with channel := asString kv.2 }
  else if kv.1 = "request" then acc
  else if kv.1 = "user" then { acc with uid := sprintV kv.2 }
  else if kv.1 = "status" then { acc with status := sprintV kv.2 }
  else if kv.1 = "duration" then { acc with duration := sprintV kv.2 }
  else
    match kv.2 with
    | .vErr err => { acc with context := mapInsert acc.context kv.1 (.vMap (errValData err)) }
    | v => { acc with context := mapInsert acc.context kv.1 v }

/-- The whole field loop (Go iterates the `Data` map; the association list
fixes one iteration order — every proved property is insensitive to it). -/
def classify (init : Classified) (data : List (String × Val)) : Classified :=
  data.foldl classifyStep init

/-- The accumulator `Format` starts from: empty reserved fields, and the
caller's `file:line`/function pre-inserted under the fixed logrus keys
(`"file"`, `"func"`) so that explicit data fields may overwrite them. -/
def initClassified (e : Entry) : Classified :=
  { channel := "", uid := "", status := "", duration := ""
    context :=
      match e.caller with
      | some c =>
        mapInsert
          (mapInsert ([] : List (String × Val)) "file"
            (.vStr (c.file ++ ":" ++ toString c.line)))
          "func" (.vStr c.function)
      | none => [] }

/-- Everything `Format` does up to serialization, given the pooled record
`pool` handed out by `logsV1Pool.Get()`: run the field loop, populate the
record field by field, and attach an enriched request — setting the
`http.request.v1` schema — exactly when `entry.Data["request"]` exists and
type-asserts to `*http.Request`.  Note the source never assigns
`data.Request` outside that branch, so the pooled record's previous
`Request` value survives otherwise. -/
def assemble (af : Formatter) (e : Entry) (pool : LogsV1) : LogsV1 :=
  let cl := classify (initClassified e) e.data
  let data0 : LogsV1 :=
    { pool with
        time := e.time
        level := e.level
        service := af.service
        channel := cl.channel
        environment := af.environment
        message := e.message
        context := cl.context
        user := cl.uid }
  match mapLookup e.data "request" with
  | some (.vReq req) =>
    { data0 with
        schema := "http.request.v1"
        request := some (richRequest req cl.status cl.duration) }
  | _ => { data0 with schema := "general.logs.v1" }

/-! ## JSON serialization (`jsoniter.NewEncoder(b).Encode(data)`)

The encoder is deterministic over the embedded record: struct fields emit in
declaration order (as Go's struct tags fix them), map members in stored
association-list order (Go's default jsoniter config does not sort map keys;
its per-call iteration order is random, which is exactly the `ctx`/`param`
ordering caveat of the idempotence property).  Encoding fails — as
`jsoniter`/`encoding/json` fail on unsupported types — exactly when a value
of kind `vFunc` (a `func`/`chan`) or `vReq` (an `*http.Request`, whose
`GetBody func()` field is unserializable) must be emitted. -/

/-- Minimal JSON string escaping for the characters that occur here. -/
def jsonEscape (s : String) : String :=
  String.mk ((s.data.map
    (fun c =>
      if c = '"' then ['\\', '"']
      else if c = '\\' then ['\\', '\\']
      else if c = '\n' then ['\\', 'n']
      else if c = '\t' then ['\\', 't']
      else [c])).flatten)

/-- A JSON string literal. -/
def jsonStr (s : String) : String := "\"" ++ jsonEscape s ++ "\""

mutual
/-- Encode one dynamic value; `none` models a `jsoniter` unsupported-type
error. -/
def encodeVal : Val → Option String
  | .vStr s => some (jsonStr s)
  | .vInt n => some (toString n)
  | .vBool b => some (cond b "true" "false")
  | .vNull => some "null"
  | .vStrs l => some ("[" ++ String.intercalate "," (l.map jsonStr) ++ "]")
  | .vMap m =>
    match encodeMembers m with
    | some s => some ("\x7b" ++ s ++ "\x7d")
    | none => none
  | .vErr _ => some "\x7b\x7d"
  | .vReq _ => none
  | .vFunc => none

/-- Encode the members of a JSON object, comma-separated. -/
def encodeMembers : List (String × Val) → Option String
  | [] => some ""
  | [(k, v)] =>
    match encodeVal v with
    | some ev => some (jsonStr k ++ ":" ++ ev)
    | none => none
  | (k, v) :: rest =>
    match encodeVal v, encodeMembers rest with
    | some ev, some s => some (jsonStr k ++ ":" ++ ev ++ "," ++ s)
    | _, _ => none
end

/-- Encode a `map[string]string` (the request headers). -/
def encodeStrMap (m : List (String × String)) : String :=
  "\x7b" ++
    String.intercalate "," (m.map (fun kv => jsonStr kv.1 ++ ":" ++ jsonStr kv.2)) ++
  "\x7d"

/-- Encode a `RequestData`, fields in struct-tag order
(`ip`,`method`,`path`,`header`,`status`,`duration`,`param`). -/
def encodeRequestData (r : RequestData) : Option String :=
  (encodeMembers r.param).map (fun ps =>
    "\x7b\"ip\":" ++ jsonStr r.ip ++
    ",\"method\":" ++ jsonStr r.method ++
    ",\"path\":" ++ jsonStr r.path ++
    ",\"header\":" ++ encodeStrMap r.headers ++
    ",\"status\":" ++ jsonStr r.status ++
    ",\"duration\":" ++ jsonStr r.duration ++
    ",\"param\":\x7b" ++ ps ++ "\x7d\x7d")

/-- Encode a `LogsV1` record, fields in struct-tag order, `request` omitted
when absent (`omitempty` on a nil pointer), with the trailing newline
`Encoder.Encode` appends. -/
def encodeLogsV1 (d : LogsV1) : Option String :=
  match encodeMembers d.context with
  | none => none
  | some ctx =>
    let base :=
      "\x7b\"schema\":" ++ jsonStr d.schema ++
      ",\"t\":" ++ jsonStr d.time ++
      ",\"l\":" ++ jsonStr d.level ++
      ",\"s\":" ++ jsonStr d.service ++
      ",\"c\":" ++ jsonStr d.channel ++
      ",\"e\":" ++ jsonStr d.environment ++
      ",\"u\":" ++ jsonStr d.user ++
      ",\"m\":" ++ jsonStr d.message ++
      ",\"ctx\":\x7b" ++ ctx ++ "\x7d"
    match d.request with
    | none => some (base ++ "\x7d\n")
    | some r =>
      match encodeRequestData r with
      | none => none
      | some rs => some (base ++ ",\"request\":" ++ rs ++ "\x7d\n")

/-! ## `Format` -/

/-- The outcome of one `Format` call.  `out` is the returned
`([]byte, error)` pair; `pool` is the record `logsV1Pool.Put` stored back
(the deferred `Put` runs on success and on error); `buffer` is the contents
of `entry.Buffer` afterwards (`Format` appends to the caller's buffer when
one is attached, and `b.Bytes()` returns the buffer's whole contents). -/
structure FormatResult where
  out : Except String String
  pool : LogsV1
  buffer : Option String

/-- `LogsV1Formatter.Format`, with the pooled record made explicit: `pool`
is the record `logsV1Pool.Get()` returns for this call.  On an encoding
error the wrapped error `"json encode <schema> log"` is returned and no
bytes; the partial buffer state on that path is modelled as unchanged. -/
def format (af : Formatter) (e : Entry) (pool : LogsV1) : FormatResult :=
  let data := assemble af e pool
  match encodeLogsV1 data with
  | none =>
    { out := .error ("json encode " ++ data.schema ++ " log")
      pool := data
      buffer := e.buffer }
  | some js =>
    match e.buffer with
    | none => { out := .ok js, pool := data, buffer := none }
    | some s => { out := .ok (s ++ js), pool := data, buffer := some (s ++ js) }

/-- Bytes of a `Format` result (`nil`, i.e. empty, on the error path). -/
def outBytes : Except String String → String
  | .ok s => s
  | .error _ => ""

/-- Did `Format` return without error? -/
def formatOk : Except String String → Bool
  | .ok _ => true
  | .error _ => false

/-! ## Spec-side definitions (for refinement statements)

These follow the specification's wording, to be compared with the embedded
source functions. -/

/-- Did the content-type check of the JSON-parameter step pass: the value of
the (lower-cased-name) `content-type` header contains `application/json`. -/
def contentTypeIsJSON (req : HTTPRequest) : Bool :=
  strContains ((mapLookup (buildHeaders req.headers) "content-type").getD "")
    "application/json"

/-- Spec-side description of the merged parameter map, read at one key:
query-string parameters, overwritten by form-body parameters (none on a form
parse failure), overwritten by the top-level JSON body members when the
content-type says JSON (none on a parse failure / non-object body). -/
def specParamLookup (req : HTTPRequest) (k : String) : Option Val :=
  let fromQuery := (lastLookup req.query k).map valuesEntry
  let fromForm :=
    if req.parseFormOk then (lastLookup req.postForm k).map valuesEntry else none
  let fromJson :=
    if contentTypeIsJSON req then lastLookup (req.jsonBody.getD []) k else none
  fromJson <|> fromForm <|> fromQuery

/-- Does `entry.Data["request"]` exist and type-assert to `*http.Request`? -/
def attachesReq (e : Entry) : Bool :=
  match mapLookup e.data "request" with
  | some v => isReqVal v
  | none => false

/-- Keep a data entry unless its key is `status` or `duration`. -/
def keepSD (kv : String × Val) : Bool :=
  kv.1 ≠ "status" && kv.1 ≠ "duration"

/-- The entry with its `status` and `duration` fields removed. -/
def eraseStatusDuration (e : Entry) : Entry :=
  { e with data := e.data.filter keepSD }

/-! ## Concrete fixtures used by individual claims -/

/-- `NewFormatter("svc", "prod")`. -/
def af0 : Formatter := NewFormatter "svc" "prod"

/-- First-call request for the pool-leak runs: carries a distinctive header
value and remote address. -/
def reqLeak : HTTPRequest :=
  { remoteAddr := "9.9.9.9:1234", method := "GET", path := "/a"
    query := [("q", ["1"])], headers := [("X-Token", ["secret-token"])]
    parseFormOk := true, postForm := [], jsonBody := none }

/-- An event carrying `reqLeak` under the `request` field. -/
def entryWithReq : Entry :=
  { time := "t1", level := "info", message := "m1"
    data := [("request", .vReq reqLeak)], caller := none, buffer := none }

/-- A plain event with no `request` field at all. -/
def entryPlain : Entry :=
  { time := "t2", level := "info", message := "m2"
    data := [], caller := none, buffer := none }

/-- Second pool-leak scenario (distinct fixture for the schema claim). -/
def reqLeakB : HTTPRequest :=
  { remoteAddr := "8.8.8.8:80", method := "POST", path := "/b"
    query := [], headers := [], parseFormOk := true, postForm := []
    jsonBody := none }

/-- Event attaching `reqLeakB`. -/
def entryWithReqB : Entry :=
  { time := "t3", level := "warning", message := "m3"
    data := [("request", .vReq reqLeakB)], caller := none, buffer := none }

/-- Plain follow-up event for the schema-leak scenario. -/
def entryPlainB : Entry :=
  { time := "t4", level := "warning", message := "m4"
    data := [], caller := none, buffer := none }

/-- An event with a (freshly reset, empty) reuse buffer attached. -/
def entryBuffered : Entry :=
  { time := "t5", level := "info", message := "m5"
    data := [], caller := none, buffer := some "" }

/-- The request of `TestFormatterOutput`: query `getPram=bar`, form
`formPram=baz`, JSON body with `jsonParam:"brz"` and a duplicated key `dup`
present in both the query string and the JSON body. -/
def reqRich : HTTPRequest :=
  { remoteAddr := "1.2.3.4:1234", method := "POST", path := "/api"
    query := [("getPram", ["bar"]), ("dup", ["fromQuery"])]
    headers := [("X-Test", ["1"]), ("Content-Type", ["application/json; charset=UTF-8"])]
    parseFormOk := true
    postForm := [("formPram", ["baz"])]
    jsonBody := some [("jsonParam", .vStr "brz"), ("dup", .vStr "fromJson")] }

/-- An error exposing fifteen stack frames, innermost first. -/
def err15 : GoError :=
  ⟨"boom", some ((List.range 15).map (fun i => ⟨"f" ++ toString i, "l" ++ toString i⟩))⟩

/-- An error exposing the `stackTracer` capability with zero frames. -/
def errNoFrames : GoError := ⟨"boom", some []⟩

/-- An event logging `errNoFrames` under a non-reserved field. -/
def entryZeroFrames : Entry :=
  { time := "t6", level := "error", message := "m6"
    data := [("err", .vErr errNoFrames)], caller := none, buffer := none }

/-- An error without the `stackTracer` capability (message as in the test). -/
def errPlain : GoError := ⟨"error occurred", none⟩

/-- An event logging `errPlain` under a non-reserved field. -/
def entryPlainErr : Entry :=
  { time := "t7", level := "error", message := "m7"
    data := [("err", .vErr errPlain)], caller := none, buffer := none }

/-- A request exercising every recoverable failure at once: unparsable
bracketed remote address, failing form parse, JSON content-type with an
unparsable body. -/
def reqDegraded : HTTPRequest :=
  { remoteAddr := "[badaddr", method := "GET", path := "/d"
    query := [], headers := [("Content-Type", ["application/json"])]
    parseFormOk := false, postForm := [("ignored", ["x"])], jsonBody := none }

/-- A malformed, partially populated event: degraded request plus an error
field without stack capability. -/
def entryDegraded : Entry :=
  { time := "t8", level := "error", message := "m8"
    data := [("request", .vReq reqDegraded), ("err", .vErr errPlain)]
    caller := none, buffer := none }

/-- An event whose context holds a value `jsoniter` cannot serialize. -/
def entryBadCtx : Entry :=
  { time := "t9", level := "info", message := "m9"
    data := [("x", .vFunc)], caller := none, buffer := none }

/-- The reserved-field event of `TestFormatterOutput`: `user=65535`. -/
def entryUser : Entry :=
  { time := "ta", level := "info", message := "ma"
    data := [("user", .vInt 65535)], caller := none, buffer := none }

/-- Request for the `status=202` round-trip. -/
def reqStatus : HTTPRequest :=
  { remoteAddr := "1.2.3.4:99", method := "GET", path := "/s"
    query := [], headers := [], parseFormOk := true, postForm := []
    jsonBody := none }

/-- Event with `status=202` and an attached request. -/
def entryStatus : Entry :=
  { time := "tb", level := "info", message := "mb"
    data := [("status", .vInt 202), ("request", .vReq reqStatus)]
    caller := none, buffer := none }

/-- Event with `status` and `duration` fields but no request attached. -/
def entryStatusNoReq : Entry :=
  { time := "tc", level := "info", message := "mc"
    data := [("status", .vInt 202), ("duration", .vInt 100), ("k", .vStr "v")]
    caller := none, buffer := none }

/-- Event whose `request` field holds a value that is not an
`*http.Request`. -/
def entryBogusReq : Entry :=
  { time := "td", level := "info", message := "md"
    data := [("request", .vStr "not a request"), ("k", .vStr "v")]
    caller := none, buffer := none }

/-! ## Helper lemmas -/

theorem mapLookup_insert {α : Type} :
    ∀ (m : List (String × α)) (k k' : String) (v : α),
      mapLookup (mapInsert m k v) k' = if k = k' then some v else mapLookup m k' := by
  intro m k k' v
  induction m with
  | nil => simp [mapInsert, mapLookup]
  | cons hd tl ih =>
    by_cases h : hd.1 = k
    · simp only [mapInsert, if_pos h]
      by_cases h' : k = k'
      · simp [mapLookup, h', h]
      · simp [mapLookup, h', h ▸ h']
    · simp only [mapInsert, if_neg h]
      by_cases h' : hd.1 = k'
      · have : ¬ k = k' := fun hh => h (hh ▸ h')
        simp [mapLookup, h', this]
      · simp [mapLookup, h', ih]

theorem mapLookup_append {α : Type} :
    ∀ (a b : List (String × α)) (k : String),
      mapLookup (a ++ b) k = (mapLookup a k <|> mapLookup b k) := by
  intro a b k
  induction a with
  | nil => simp [mapLookup]
  | cons hd tl ih =>
    by_cases h : hd.1 = k
    · simp [mapLookup, h]
    · simp [mapLookup, h, ih]

theorem lastLookup_nil {α : Type} (k : String) :
    lastLookup ([] : List (String × α)) k = none := rfl

theorem lastLookup_cons {α : Type} (kv : String × α) (rest : List (String × α)) (k : String) :
    lastLookup (kv :: rest) k =
      (lastLookup rest k <|> if kv.1 = k then some kv.2 else none) := by
  unfold lastLookup
  rw [List.reverse_cons, mapLookup_append]
  cases mapLookup rest.reverse k <;> simp [mapLookup]

theorem mapLookup_eq_none_iff {α : Type} :
    ∀ (l : List (String × α)) (k : String),
      mapLookup l k = none ↔ ∀ kv ∈ l, kv.1 ≠ k := by
  intro l k
  induction l with
  | nil => simp [mapLookup]
  | cons hd tl ih =>
    by_cases h : hd.1 = k
    · simp [mapLookup, h]
    · simp [mapLookup, h, ih]

theorem lastLookup_eq_none_iff {α : Type} (l : List (String × α)) (k : String) :
    lastLookup l k = none ↔ ∀ kv ∈ l, kv.1 ≠ k := by
  unfold lastLookup
  rw [mapLookup_eq_none_iff]
  constructor
  · intro h kv hm
    exact h kv (List.mem_reverse.mpr hm)
  · intro h kv hm
    exact h kv (List.mem_reverse.mp hm)

/-- Lookup after a map-write loop: the last write of the source wins, the
initial map answers otherwise. -/
theorem mapLookup_foldl_insert {α β : Type} (f : β → α) :
    ∀ (src : List (String × β)) (m : List (String × α)) (k : String),
      mapLookup (src.foldl (fun acc kv => mapInsert acc kv.1 (f kv.2)) m) k =
        ((lastLookup src k).map f <|> mapLookup m k) := by
  intro src
  induction src with
  | nil => intro m k; simp [lastLookup, mapLookup]
  | cons kv rest ih =>
    intro m k
    rw [List.foldl_cons, ih, lastLookup_cons]
    cases hrest : lastLookup rest k with
    | some b => simp
    | none =>
      simp only [Option.none_orElse, mapLookup_insert]
      by_cases h : kv.1 = k <;> simp [h]

/-- The record `Put` back into the pool is always the assembled record. -/
theorem format_pool (af : Formatter) (e : Entry) (pool : LogsV1) :
    (format af e pool).pool = assemble af e pool := by
  unfold format
  cases h : encodeLogsV1 (assemble af e pool) <;> cases hb : e.buffer <;> simp [h, hb]

/-- Re-assembling the same entry over the record a first assembly produced
yields the same record (only the stale `request` field is ever read from the
pooled record, and it is either overwritten or copied unchanged). -/
theorem assemble_assemble (af : Formatter) (e : Entry) (pool : LogsV1) :
    assemble af e (assemble af e pool) = assemble af e pool := by
  unfold assemble
  cases h : mapLookup e.data "request" with
  | none => simp
  | some v => cases v <;> simp

/-! ## Claim theorems -/

/-- C5: for every raw address string, if it starts with `[` or contains
exactly one `:`, `parseIP` returns the host part of standard host:port
parsing (the empty string on a parse failure); otherwise it returns the
input unchanged.  In particular `"1.1.1.1"` maps to itself,
`"1.1.1.1:19123"` to `"1.1.1.1"`, a bare IPv6 address to itself, and a
bracketed IPv6-with-port to the bare address. -/
theorem c5_parseIP_host_extraction :
    (∀ s : String,
      parseIP s =
        if s.data.head? = some '[' || s.data.count ':' = 1 then
          ((splitHostPort s).map Prod.fst).getD ""
        else s)
    ∧ parseIP "1.1.1.1" = "1.1.1.1"
    ∧ parseIP "1.1.1.1:19123" = "1.1.1.1"
    ∧ parseIP "240a:6b:100:2aac:e4a3:8908:b1f5:b0bd"
        = "240a:6b:100:2aac:e4a3:8908:b1f5:b0bd"
    ∧ parseIP "[240a:6b:100:2aac:e4a3:8908:b1f5:b0bd]:2155"
        = "240a:6b:100:2aac:e4a3:8908:b1f5:b0bd" := by
  refine ⟨?_, by decide, by decide, by decide, by decide⟩
  intro s
  unfold parseIP
  cases h : splitHostPort s <;> simp [h]

/-- The extracted trace is always the `MaxStackTrace`-long initial segment
of the rendered stack trace. -/
theorem extractError_snd_take (err : GoError) :
    (extractError err).2 = (stackTrace err).take MaxStackTrace := by
  unfold extractError
  by_cases h0 : 0 < (stackTrace err).length
  · by_cases hM : MaxStackTrace ≤ (stackTrace err).length
    · simp [h0, hM]
    · have hle : (stackTrace err).length ≤ MaxStackTrace := le_of_not_le hM
      simp [h0, hM, List.take_of_length_le hle]
  · have : (stackTrace err).length = 0 := Nat.eq_zero_of_not_pos h0
    have hnil : stackTrace err = [] := List.length_eq_zero.mp this
    simp [h0, hnil]

/-- C6: the extracted trace always equals the earliest (innermost-first)
`MaxStackTrace` rendered frames — hence never exceeds `MaxStackTrace`
(default 10) entries — and an error exposing fifteen frames yields exactly
the ten earliest entries. -/
theorem c6_stack_truncation :
    (∀ err : GoError,
      (extractError err).2 = (stackTrace err).take MaxStackTrace
      ∧ (extractError err).2.length ≤ MaxStackTrace)
    ∧ (extractError err15).2 =
        ["f0 l0", "f1 l1", "f2 l2", "f3 l3", "f4 l4",
         "f5 l5", "f6 l6", "f7 l7", "f8 l8", "f9 l9"] := by
  refine ⟨?_, by decide⟩
  intro err
  refine ⟨extractError_snd_take err, ?_⟩
  rw [extractError_snd_take err]
  calc ((stackTrace err).take MaxStackTrace).length
      = min MaxStackTrace (stackTrace err).length := List.length_take _ _
    _ ≤ MaxStackTrace := Nat.min_le_left _ _

/-- C1 is refuted by the code: `Format` never resets the pooled record's
`Request` field, so after formatting an event that attached a request, a
second event with no `request` field at all is serialized with the previous
call's entire `RequestData` — its headers (here the distinctive value
`secret-token`) leak into the unrelated event's output. -/
theorem c1_previous_request_leaks :
    mapLookup entryPlain.data "request" = none
    ∧ (format af0 entryPlain (format af0 entryWithReq zeroRecord).pool).pool.request
        = some (richRequest reqLeak "" "")
    ∧ strContains
        (outBytes (format af0 entryPlain (format af0 entryWithReq zeroRecord).pool).out)
        "secret-token" = true := by
  exact ⟨rfl, rfl, rfl⟩

/-- C2 is refuted by the code through the same missing reset: the second
call's record keeps the stale request while its schema is set to
`general.logs.v1`, so the serialized output contains a `request` object
whose schema field is not `http.request.v1`. -/
theorem c2_schema_request_mismatch :
    (format af0 entryPlainB (format af0 entryWithReqB zeroRecord).pool).pool.schema
      = "general.logs.v1"
    ∧ ((format af0 entryPlainB (format af0 entryWithReqB zeroRecord).pool).pool.request).isSome
        = true
    ∧ strContains
        (outBytes (format af0 entryPlainB (format af0 entryWithReqB zeroRecord).pool).out)
        "\"schema\":\"general.logs.v1\"" = true
    ∧ strContains
        (outBytes (format af0 entryPlainB (format af0 entryWithReqB zeroRecord).pool).out)
        "\"request\":" = true := by
  exact ⟨rfl, rfl, rfl, rfl⟩

/-- C3's counterexample: an event that carries a pre-attached output buffer.
The caller mutates nothing — `Format` itself appends each call's record to
the attached buffer and returns the buffer's whole contents — yet the two
sequential calls return different bytes (the second returns both records). -/
theorem c3_buffered_entry_not_idempotent :
    outBytes
        (format af0
          { entryBuffered with buffer := (format af0 entryBuffered zeroRecord).buffer }
          (format af0 entryBuffered zeroRecord).pool).out
      ≠ outBytes (format af0 entryBuffered zeroRecord).out := by
  decide

/-- C3 amended: for an event with no pre-attached buffer (`entry.Buffer`
nil), two sequential `Format` calls — the second reusing the pooled record
released by the first — return byte-for-byte identical output (the embedding
fixes one iteration order for `ctx`/`param`, the orderings the claim already
excludes). -/
theorem c3_idempotent_without_buffer (af : Formatter) (e : Entry) (pool : LogsV1)
    (h : e.buffer = none) :
    (format af { e with buffer := (format af e pool).buffer }
        ((format af e pool).pool)).out
      = (format af e pool).out := by
  have hb : (format af e pool).buffer = none := by
    unfold format
    cases henc : encodeLogsV1 (assemble af e pool) <;> simp [henc, h]
  rw [hb]
  have he : { e with buffer := none } = e := by
    cases e
    simp_all
  rw [he, format_pool]
  unfold format
  rw [assemble_assemble]

/-- Witness for `c3_idempotent_without_buffer` at a concrete event. -/
theorem c3_idempotent_witness :
    entryPlain.buffer = none
    ∧ (format af0
          { entryPlain with buffer := (format af0 entryPlain zeroRecord).buffer }
          ((format af0 entryPlain zeroRecord).pool)).out
        = (format af0 entryPlain zeroRecord).out :=
  ⟨rfl, c3_idempotent_without_buffer af0 entryPlain zeroRecord rfl⟩

theorem insertParams_lookup (src : List (String × List String))
    (m : List (String × Val)) (k : String) :
    mapLookup (insertParams m src) k =
      ((lastLookup src k).map valuesEntry <|> mapLookup m k) := by
  unfold insertParams
  exact mapLookup_foldl_insert valuesEntry src m k

theorem jsonFold_lookup (body : List (String × Val)) (m : List (String × Val)) (k : String) :
    mapLookup (body.foldl (fun acc kv => mapInsert acc kv.1 kv.2) m) k =
      (lastLookup body k <|> mapLookup m k) := by
  have h := mapLookup_foldl_insert (id : Val → Val) body m k
  simpa using h

theorem insertParams_guard (src : List (String × List String)) (m : List (String × Val)) :
    (if 0 < src.length then insertParams m src else m) = insertParams m src := by
  cases src <;> simp [insertParams]

/-- C4: reading the merged `param` map of an enriched request at any key
agrees with the spec-side precedence JSON body → form body → query string
(each later source overwriting earlier ones, failed sources contributing
nothing); in particular, in the test request the key `dup`, present in both
the query string and the JSON body, resolves to the JSON body's value. -/
theorem c4_param_merge_order :
    (∀ (req : HTTPRequest) (status duration k : String),
      mapLookup (richRequest req status duration).param k = specParamLookup req k)
    ∧ mapLookup (richRequest reqRich "" "").param "dup" = some (.vStr "fromJson")
    ∧ mapLookup (richRequest reqRich "" "").param "getPram" = some (.vStr "bar")
    ∧ mapLookup (richRequest reqRich "" "").param "formPram" = some (.vStr "baz")
    ∧ mapLookup (richRequest reqRich "" "").param "jsonParam" = some (.vStr "brz") := by
  refine ⟨?_, rfl, rfl, rfl, rfl⟩
  intro req status duration k
  unfold richRequest specParamLookup contentTypeIsJSON
  simp only [insertParams_guard]
  have hp2 :
      mapLookup
          (if req.parseFormOk then insertParams (insertParams [] req.query) req.postForm
           else insertParams [] req.query) k =
        ((if req.parseFormOk then (lastLookup req.postForm k).map valuesEntry else none) <|>
          (lastLookup req.query k).map valuesEntry) := by
    cases hf : req.parseFormOk <;>
      cases hpf : lastLookup req.postForm k <;>
      cases hq : lastLookup req.query k <;>
      simp [insertParams_lookup, hpf, hq, mapLookup]
  cases hct :
      strContains ((mapLookup (buildHeaders req.headers) "content-type").getD "")
        "application/json" with
  | false =>
    simp only [hct, Bool.false_eq_true, if_false]
    rw [hp2]
    simp
  | true =>
    cases hj : req.jsonBody with
    | none =>
      simp only [hct, if_true, hj]
      rw [hp2]
      simp [lastLookup, mapLookup]
    | some body =>
      simp only [hct, if_true, hj, jsonFold_lookup, Option.getD_some]
      cases hb : lastLookup body k with
      | none =>
        simp only [Option.none_orElse]
        rw [hp2]
      | some b => simp

/-! ## Lemmas about the field-classification loop -/

theorem classify_cons (acc : Classified) (kv : String × Val) (rest : List (String × Val)) :
    classify acc (kv :: rest) = classify (classifyStep acc kv) rest := rfl

theorem splitOnChar_ne_nil (sep : Char) : ∀ l : List Char, splitOnChar sep l ≠ [] := by
  intro l
  induction l with
  | nil => simp [splitOnChar]
  | cons c rest ih =>
    unfold splitOnChar
    by_cases h : c = sep
    · simp [h]
    · simp only [h, if_false]
      cases hs : splitOnChar sep rest <;> simp

theorem stackTrace_none (err : GoError) (h : err.frames = none) : stackTrace err = [] := by
  unfold stackTrace
  rw [h]
  rfl

theorem stackTrace_ne_nil (err : GoError) (fs : List Frame) (h : err.frames = some fs) :
    stackTrace err ≠ [] := by
  unfold stackTrace
  rw [h]
  intro hc
  exact splitOnChar_ne_nil '\n' _ (List.map_eq_nil_iff.mp hc)

theorem extractError_trace_pos_iff (err : GoError) :
    (0 < (extractError err).2.length) ↔ err.frames.isSome = true := by
  rw [extractError_snd_take]
  cases hf : err.frames with
  | none =>
    rw [stackTrace_none err hf]
    simp
  | some fs =>
    have hne := stackTrace_ne_nil err fs hf
    have hpos : 0 < (stackTrace err).length := List.length_pos.mpr hne
    simp only [List.length_take, Option.isSome_some, iff_true]
    have hM : 0 < MaxStackTrace := by decide
    exact lt_min hM hpos

theorem errValData_lookup_msg (err : GoError) :
    mapLookup (errValData err) "msg" = some (.vStr err.msg) := by
  have hfst : (extractError err).1 = err.msg := rfl
  unfold errValData
  by_cases h : 0 < (extractError err).2.length <;>
    simp [h, mapLookup_insert, mapLookup, hfst]

theorem errValData_lookup_trace (err : GoError) :
    mapLookup (errValData err) "trace" =
      if 0 < (extractError err).2.length then some (.vStrs (extractError err).2)
      else none := by
  unfold errValData
  by_cases h : 0 < (extractError err).2.length <;>
    simp [h, mapLookup_insert, mapLookup]

theorem classifyStep_context_other (acc : Classified) (kv : String × Val) (k : String)
    (hk : kv.1 ≠ k) :
    mapLookup (classifyStep acc kv).context k = mapLookup acc.context k := by
  unfold classifyStep
  split_ifs <;> try rfl
  cases kv.2 <;> simp [mapLookup_insert, hk]

theorem classify_context_no_key :
    ∀ (l : List (String × Val)) (acc : Classified) (k : String),
      (∀ kv ∈ l, kv.1 ≠ k) →
      mapLookup (classify acc l).context k = mapLookup acc.context k := by
  intro l
  induction l with
  | nil => intro acc k _; rfl
  | cons kv rest ih =>
    intro acc k h
    rw [classify_cons, ih (classifyStep acc kv) k (fun kv' hm => h kv' (by simp [hm]))]
    exact classifyStep_context_other acc kv k (h kv (by simp))

theorem classify_context_err :
    ∀ (l : List (String × Val)) (acc : Classified) (k : String) (err : GoError),
      k ≠ "channel" → k ≠ "request" → k ≠ "user" → k ≠ "status" → k ≠ "duration" →
      lastLookup l k = some (.vErr err) →
      mapLookup (classify acc l).context k = some (.vMap (errValData err)) := by
  intro l
  induction l with
  | nil => intro acc k err _ _ _ _ _ hl; simp [lastLookup, mapLookup] at hl
  | cons kv rest ih =>
    intro acc k err h1 h2 h3 h4 h5 hl
    rw [lastLookup_cons] at hl
    cases hrest : lastLookup rest k with
    | some b =>
      rw [hrest] at hl
      simp only [Option.some_orElse, Option.some.injEq] at hl
      rw [classify_cons]
      exact ih (classifyStep acc kv) k err h1 h2 h3 h4 h5 (by rw [hrest, hl])
    | none =>
      rw [hrest, Option.none_orElse] at hl
      by_cases hkv : kv.1 = k
      · rw [if_pos hkv] at hl
        have hv : kv.2 = Val.vErr err := Option.some.injEq _ _ ▸ hl
        have hkveq : kv = (k, Val.vErr err) := Prod.ext hkv hv
        rw [classify_cons,
          classify_context_no_key rest _ k ((lastLookup_eq_none_iff rest k).mp hrest),
          hkveq]
        unfold classifyStep
        simp [h1, h2, h3, h4, h5, mapLookup_insert]
      · rw [if_neg hkv] at hl
        exact absurd hl (by simp)

/-- The context of the assembled record is the classifier's context. -/
theorem assemble_context (af : Formatter) (e : Entry) (pool : LogsV1) :
    (assemble af e pool).context = (classify (initClassified e) e.data).context := by
  unfold assemble
  cases h : mapLookup e.data "request" with
  | none => rfl
  | some v => cases v <;> rfl

/-- C7 amended: a non-reserved error-valued field becomes a context entry
`\x7bmsg, trace?\x7d` whose `msg` is the error's own message and whose
`trace` key is present exactly when the error exposes the `stackTracer`
capability — also with zero frames, where the rendered empty trace splits
into the single entry `""` (so the claim's "zero frames ⇒ no trace key"
direction fails; capability absence is what removes the key). -/
theorem c7_error_context_entry (af : Formatter) (e : Entry) (pool : LogsV1)
    (k : String) (err : GoError)
    (h1 : k ≠ "channel") (h2 : k ≠ "request") (h3 : k ≠ "user")
    (h4 : k ≠ "status") (h5 : k ≠ "duration")
    (hl : lastLookup e.data k = some (.vErr err)) :
    mapLookup (format af e pool).pool.context k = some (.vMap (errValData err))
    ∧ mapLookup (errValData err) "msg" = some (.vStr err.msg)
    ∧ (mapLookup (errValData err) "trace").isSome = err.frames.isSome := by
  refine ⟨?_, errValData_lookup_msg err, ?_⟩
  · rw [format_pool, assemble_context]
    exact classify_context_err e.data (initClassified e) k err h1 h2 h3 h4 h5 hl
  · rw [errValData_lookup_trace]
    by_cases hp : 0 < (extractError err).2.length
    · simp [hp, ((extractError_trace_pos_iff err).mp hp).symm]
    · have : ¬ err.frames.isSome = true := fun hs =>
        hp ((extractError_trace_pos_iff err).mpr hs)
      simp [hp, Bool.not_eq_true] at this ⊢
      simp [this]

/-- Witness for `c7_error_context_entry`: the test's capability-less error
`"error occurred"` yields a `msg`-only context entry (no `trace` key). -/
theorem c7_error_context_witness :
    ((("err" : String) ≠ "channel") ∧ (("err" : String) ≠ "request")
      ∧ (("err" : String) ≠ "user") ∧ (("err" : String) ≠ "status")
      ∧ (("err" : String) ≠ "duration")
      ∧ lastLookup entryPlainErr.data "err" = some (.vErr errPlain))
    ∧ (mapLookup (format af0 entryPlainErr zeroRecord).pool.context "err"
          = some (.vMap (errValData errPlain))
        ∧ mapLookup (errValData errPlain) "msg" = some (.vStr "error occurred")
        ∧ (mapLookup (errValData errPlain) "trace").isSome = false) :=
  ⟨⟨by decide, by decide, by decide, by decide, by decide, rfl⟩,
    c7_error_context_entry af0 entryPlainErr zeroRecord "err" errPlain
      (by decide) (by decide) (by decide) (by decide) (by decide) rfl⟩

/-- C7's counterexample: an error exposing the `stackTracer` capability with
ZERO frames still gets a `trace` key — the empty rendered trace splits into
`[""]`, a one-element list, so the `len(trace) > 0` guard passes — refuting
"exposing zero frames yields a context entry with no trace key present". -/
theorem c7_zero_frames_trace_present :
    errNoFrames.frames = some []
    ∧ mapLookup (format af0 entryZeroFrames zeroRecord).pool.context "err"
        = some (.vMap [("msg", .vStr "boom"), ("trace", .vStrs [""])])
    ∧ (mapLookup (errValData errNoFrames) "trace").isSome = true :=
  ⟨rfl, rfl, rfl⟩

/-- C8: the only error `Format` surfaces is a final-serialization failure,
reported as the wrapped message naming the schema, with no bytes returned;
recoverable failures (form parse, JSON body parse, IP parse, missing stack
capability — all present at once in `entryDegraded`) still produce a
best-effort record. -/
theorem c8_error_only_from_encoding :
    (∀ (af : Formatter) (e : Entry) (pool : LogsV1),
      (match encodeLogsV1 (assemble af e pool) with
       | some js => (format af e pool).out = .ok ((e.buffer.getD "") ++ js)
       | none =>
         (format af e pool).out =
           .error ("json encode " ++ (assemble af e pool).schema ++ " log")))
    ∧ formatOk (format af0 entryDegraded zeroRecord).out = true
    ∧ (format af0 entryBadCtx zeroRecord).out = .error "json encode general.logs.v1 log" := by
  refine ⟨?_, rfl, rfl⟩
  intro af e pool
  unfold format
  cases henc : encodeLogsV1 (assemble af e pool) with
  | none => simp [henc]
  | some js => cases hb : e.buffer <;> simp [henc, hb]

/-! ## Lemmas for the reserved-field claims -/

theorem classifyStep_cuc (a b : Classified) (kv : String × Val)
    (h1 : a.channel = b.channel) (h2 : a.uid = b.uid) (h3 : a.context = b.context) :
    (classifyStep a kv).channel = (classifyStep b kv).channel
    ∧ (classifyStep a kv).uid = (classifyStep b kv).uid
    ∧ (classifyStep a kv).context = (classifyStep b kv).context := by
  unfold classifyStep
  split_ifs <;> cases kv.2 <;> simp [h1, h2, h3]

theorem classify_cuc :
    ∀ (l : List (String × Val)) (a b : Classified),
      a.channel = b.channel → a.uid = b.uid → a.context = b.context →
      (classify a l).channel = (classify b l).channel
      ∧ (classify a l).uid = (classify b l).uid
      ∧ (classify a l).context = (classify b l).context := by
  intro l
  induction l with
  | nil => intro a b h1 h2 h3; exact ⟨h1, h2, h3⟩
  | cons kv rest ih =>
    intro a b h1 h2 h3
    have hs := classifyStep_cuc a b kv h1 h2 h3
    exact ih (classifyStep a kv) (classifyStep b kv) hs.1 hs.2.1 hs.2.2

theorem classifyStep_sd_cuc (a : Classified) (kv : String × Val)
    (h : kv.1 = "status" ∨ kv.1 = "duration") :
    (classifyStep a kv).channel = a.channel
    ∧ (classifyStep a kv).uid = a.uid
    ∧ (classifyStep a kv).context = a.context := by
  unfold classifyStep
  cases h with
  | inl h => simp [h]
  | inr h => simp [h]

theorem keepSD_false (kv : String × Val) (h : keepSD kv = false) :
    kv.1 = "status" ∨ kv.1 = "duration" := by
  unfold keepSD at h
  by_cases hs : kv.1 = "status"
  · exact Or.inl hs
  · by_cases hd : kv.1 = "duration"
    · exact Or.inr hd
    · simp [hs, hd] at h

theorem classify_filter_sd :
    ∀ (l : List (String × Val)) (a : Classified),
      (classify a (l.filter keepSD)).channel = (classify a l).channel
      ∧ (classify a (l.filter keepSD)).uid = (classify a l).uid
      ∧ (classify a (l.filter keepSD)).context = (classify a l).context := by
  intro l
  induction l with
  | nil => intro a; exact ⟨rfl, rfl, rfl⟩
  | cons kv rest ih =>
    intro a
    rw [List.filter_cons]
    cases hk : keepSD kv with
    | true =>
      simp only [if_true]
      rw [classify_cons, classify_cons]
      exact ih (classifyStep a kv)
    | false =>
      simp only [Bool.false_eq_true, if_false]
      rw [classify_cons]
      have hsd := classifyStep_sd_cuc a kv (keepSD_false kv hk)
      have hcuc := classify_cuc rest (classifyStep a kv) a hsd.1 hsd.2.1 hsd.2.2
      have hih := ih a
      exact ⟨hih.1.trans hcuc.1.symm, hih.2.1.trans hcuc.2.1.symm,
        hih.2.2.trans hcuc.2.2.symm⟩

theorem mapLookup_filter_keepSD (l : List (String × Val)) :
    mapLookup (l.filter keepSD) "request" = mapLookup l "request" := by
  induction l with
  | nil => rfl
  | cons kv rest ih =>
    rw [List.filter_cons]
    cases hk : keepSD kv with
    | true => by_cases hr : kv.1 = "request" <;> simp [mapLookup, hr, ih]
    | false =>
      have hr : kv.1 ≠ "request" := by
        cases keepSD_false kv hk with
        | inl h => rw [h]; decide
        | inr h => rw [h]; decide
      simp [mapLookup, hr, ih]

theorem assemble_erase_sd (af : Formatter) (e : Entry) (pool : LogsV1)
    (hA : attachesReq e = false) :
    assemble af (eraseStatusDuration e) pool = assemble af e pool := by
  have hfil := classify_filter_sd e.data (initClassified e)
  have hinit : initClassified (eraseStatusDuration e) = initClassified e := rfl
  have hdata : (eraseStatusDuration e).data = e.data.filter keepSD := rfl
  unfold assemble
  rw [hinit, hdata, mapLookup_filter_keepSD]
  have htime : (eraseStatusDuration e).time = e.time := rfl
  have hlevel : (eraseStatusDuration e).level = e.level := rfl
  have hmsg : (eraseStatusDuration e).message = e.message := rfl
  rw [htime, hlevel, hmsg]
  cases hr : mapLookup e.data "request" with
  | none => simp [hfil.1, hfil.2.1, hfil.2.2]
  | some v =>
    have hfalse : isReqVal v = false := by
      unfold attachesReq at hA
      rw [hr] at hA
      exact hA
    cases v <;> try simp [isReqVal] at hfalse
    all_goals simp [hfil.1, hfil.2.1, hfil.2.2]

/-- C9: reserved fields round-trip by default string conversion —
`user=65535` serializes as `"u":"65535"`, `status=202` with an attached
request serializes as `"status":"202"` inside the `request` object — and
when no request type-matches, removing the `status`/`duration` fields leaves
the entire `Format` outcome unchanged: their values reach the output only
through the request object. -/
theorem c9_reserved_field_roundtrip :
    ((format af0 entryUser zeroRecord).pool.user = "65535"
      ∧ strContains (outBytes (format af0 entryUser zeroRecord).out)
          "\"u\":\"65535\"" = true)
    ∧ ((format af0 entryStatus zeroRecord).pool.request.map RequestData.status
          = some "202"
      ∧ strContains (outBytes (format af0 entryStatus zeroRecord).out)
          "\"status\":\"202\"" = true)
    ∧ (∀ (af : Formatter) (e : Entry) (pool : LogsV1),
        attachesReq e = false →
        format af (eraseStatusDuration e) pool = format af e pool) := by
  refine ⟨⟨rfl, rfl⟩, ⟨rfl, rfl⟩, ?_⟩
  intro af e pool hA
  unfold format
  rw [assemble_erase_sd af e pool hA,
    show (eraseStatusDuration e).buffer = e.buffer from rfl]

/-- Witness for `c9_reserved_field_roundtrip` at an event that carries
`status`, `duration` and context fields but no request. -/
theorem c9_reserved_witness :
    attachesReq entryStatusNoReq = false
    ∧ format af0 (eraseStatusDuration entryStatusNoReq) zeroRecord
        = format af0 entryStatusNoReq zeroRecord :=
  ⟨rfl, (c9_reserved_field_roundtrip.2.2 af0 entryStatusNoReq zeroRecord rfl)⟩

/-- C10: a `request` field whose value is not an `*http.Request` is
discarded: it never reaches the context map (the loop `continue`s on the
key), no enrichment runs (the record keeps the pooled `request` value), and
the schema stays `general.logs.v1`. -/
theorem classifyStep_context_request (acc : Classified) (kv : String × Val) :
    mapLookup (classifyStep acc kv).context "request" = mapLookup acc.context "request" := by
  by_cases h : kv.1 = "request"
  · simp [classifyStep, h]
  · exact classifyStep_context_other acc kv "request" h

theorem classify_context_request :
    ∀ (l : List (String × Val)) (acc : Classified),
      mapLookup (classify acc l).context "request" = mapLookup acc.context "request" := by
  intro l
  induction l with
  | nil => intro acc; rfl
  | cons kv rest ih =>
    intro acc
    rw [classify_cons, ih (classifyStep acc kv)]
    exact classifyStep_context_request acc kv

theorem c10_non_request_value_discarded (af : Formatter) (e : Entry) (pool : LogsV1)
    (v : Val) (hv : mapLookup e.data "request" = some v) (hr : isReqVal v = false) :
    mapLookup (format af e pool).pool.context "request" = none
    ∧ (format af e pool).pool.request = pool.request
    ∧ (format af e pool).pool.schema = "general.logs.v1" := by
  rw [format_pool]
  have h1 : mapLookup (assemble af e pool).context "request" = none := by
    rw [assemble_context, classify_context_request]
    unfold initClassified
    cases e.caller <;> simp [mapInsert, mapLookup]
  have h2 : (assemble af e pool).request = pool.request := by
    unfold assemble
    simp only [hv]
    cases v <;> simp_all [isReqVal]
  have h3 : (assemble af e pool).schema = "general.logs.v1" := by
    unfold assemble
    simp only [hv]
    cases v <;> simp_all [isReqVal]
  exact ⟨h1, h2, h3⟩

/-- Witness for `c10_non_request_value_discarded`: a `request` field holding
a plain string. -/
theorem c10_witness :
    (mapLookup entryBogusReq.data "request" = some (.vStr "not a request")
      ∧ isReqVal (.vStr "not a request") = false)
    ∧ (mapLookup (format af0 entryBogusReq zeroRecord).pool.context "request" = none
      ∧ (format af0 entryBogusReq zeroRecord).pool.request = zeroRecord.request
      ∧ (format af0 entryBogusReq zeroRecord).pool.schema = "general.logs.v1") :=
  ⟨⟨rfl, rfl⟩,
    c10_non_request_value_discarded af0 entryBogusReq zeroRecord
      (.vStr "not a request") rfl rfl⟩

end Logger
